import Mathlib

/-!
# Verification of the PulseGuardian specification

Shallow embedding of the pulseguardian repository's guardian loop,
threshold policy, reconciler, and the `User.new_user` / `delete_queue`
web-layer operations, with theorems settling the specification claims.

The guardian implementation itself (`guardian.py`, class `PulseGuardian`)
is not among the available sources (only its test harness
`src/runtests.py` and two web/model files are); the guardian-side
definitions below are therefore modelled from the specification text
(sections 4.2-4.6), as noted in their doc comments.  `User.new_user` and
the `delete_queue` view are embedded directly from
`pulseguardian/model/user.py` and `pulseguardian/web.py`.
-/

namespace Pulse

/-- Modelled from the spec: the action alphabet of the Threshold Policy
(section 4.3): one of NONE, WARN, DELETE. -/
inductive QAction
  | NONE
  | WARN
  | DELETE
deriving DecidableEq

/-- Modelled from the spec: the Threshold Policy (section 4.3), whose
implementation (`guardian.py`) is missing from the sources.  Pure function
of `(observedSize, warned)` and two configured integer thresholds:
`observedSize > deleteSize` gives DELETE regardless of `warned`;
`observedSize > warnSize AND observedSize <= deleteSize AND warned == false`
gives WARN; otherwise NONE. -/
def thresholdPolicy (warnSize deleteSize : Int) (observedSize : Int)
    (warned : Bool) : QAction :=
  if deleteSize < observedSize then QAction.DELETE
  else if warnSize < observedSize ∧ observedSize ≤ deleteSize ∧ warned = false then
    QAction.WARN
  else QAction.NONE

theorem thresholdPolicy_eq_DELETE (w d s : Int) (b : Bool) :
    thresholdPolicy w d s b = QAction.DELETE ↔ d < s := by
  unfold thresholdPolicy
  split_ifs with h1 h2 <;> simp_all

theorem thresholdPolicy_eq_WARN (w d s : Int) (b : Bool) :
    thresholdPolicy w d s b = QAction.WARN ↔ (w < s ∧ s ≤ d ∧ b = false) := by
  unfold thresholdPolicy
  split_ifs with h1 h2 <;> simp_all

theorem thresholdPolicy_eq_NONE (w d s : Int) (b : Bool) :
    thresholdPolicy w d s b = QAction.NONE ↔
      (s ≤ d ∧ ¬ (w < s ∧ s ≤ d ∧ b = false)) := by
  unfold thresholdPolicy
  split_ifs with h1 h2 <;> simp_all

/-- Claim C1: for integer observed size `s` and thresholds
`warnSize < deleteSize`, the Threshold Policy applied to `(s, warned=false)`
returns DELETE iff `s > deleteSize`, WARN iff `warnSize < s <= deleteSize`,
and NONE iff `s <= warnSize`. -/
theorem threshold_monotonicity (warnSize deleteSize s : Int)
    (h : warnSize < deleteSize) :
    (thresholdPolicy warnSize deleteSize s false = QAction.DELETE ↔
      deleteSize < s) ∧
    (thresholdPolicy warnSize deleteSize s false = QAction.WARN ↔
      (warnSize < s ∧ s ≤ deleteSize)) ∧
    (thresholdPolicy warnSize deleteSize s false = QAction.NONE ↔
      s ≤ warnSize) := by
  refine ⟨thresholdPolicy_eq_DELETE _ _ _ _, ?_, ?_⟩
  · rw [thresholdPolicy_eq_WARN]
    simp
  · rw [thresholdPolicy_eq_NONE]
    constructor
    · rintro ⟨h1, h2⟩
      by_contra hlt
      exact h2 ⟨by omega, h1, rfl⟩
    · intro hs
      exact ⟨by omega, fun ⟨h1, _, _⟩ => by omega⟩

/-- Witness for C1 at thresholds 100/500 and observed size 150. -/
theorem threshold_monotonicity_witness :
    (100 : Int) < 500 ∧
    ((thresholdPolicy 100 500 150 false = QAction.WARN ↔
      ((100 : Int) < 150 ∧ (150 : Int) ≤ 500))) :=
  ⟨by decide, (threshold_monotonicity 100 500 150 (by decide)).2.1⟩

/-- Claim C2: for every observed size and every value of the warned flag,
if the observed size exceeds `deleteSize` then the Threshold Policy returns
DELETE (not WARN and not NONE): delete takes precedence over warn, even for
a queue that was never previously warned. -/
theorem delete_precedence (warnSize deleteSize s : Int) (warned : Bool)
    (h : deleteSize < s) :
    thresholdPolicy warnSize deleteSize s warned = QAction.DELETE ∧
    thresholdPolicy warnSize deleteSize s warned ≠ QAction.WARN ∧
    thresholdPolicy warnSize deleteSize s warned ≠ QAction.NONE := by
  have hd := (thresholdPolicy_eq_DELETE warnSize deleteSize s warned).mpr h
  exact ⟨hd, by simp [hd], by simp [hd]⟩

/-- Witness for C2 at thresholds 100/500, observed size 600, warned=false. -/
theorem delete_precedence_witness :
    (500 : Int) < 600 ∧
    thresholdPolicy 100 500 600 false = QAction.DELETE :=
  ⟨by decide, (delete_precedence 100 500 600 false (by decide)).1⟩

/-- Modelled from the spec: a MonitoredQueue record of the Ownership Store
(section 3): broker queue name (unique key), owning BrokerPrincipal username
(none for unowned queues), and the persisted `warned` flag. -/
structure MQueue where
  name : String
  owner : Option String
  warned : Bool
deriving DecidableEq

/-- Modelled from the spec: one entry of the live broker snapshot (a queue
name together with its ready-message count), as produced by the Broker
Gateway `listQueues` call (sections 4.1, 6). -/
structure SnapQueue where
  name : String
  messagesReady : Int
deriving DecidableEq

/-- Modelled from the spec: the fixed collaborator context of one guardian
cycle (section 4): the two thresholds, the broker's response to each
`deleteQueue` call, the owning Account contact address of each
BrokerPrincipal, the registered BrokerPrincipal usernames, and the
Notification rows (address, queue name). -/
structure Env where
  warnSize : Int
  deleteSize : Int
  delOk : String → Bool
  contact : String → Option String
  principals : List String
  notifs : List (String × String)

/-- Whether the snapshot contains an entry for the record's queue name. -/
def queueInSnap (snap : List SnapQueue) (q : MQueue) : Bool :=
  snap.any (fun s => s.name == q.name)

/-- Whether the store holds a record with the given queue name. -/
def nameInStore (store : List MQueue) (n : String) : Bool :=
  store.any (fun q => q.name == n)

/-- Modelled from the spec: owner resolution by convention (section 4.2
step 1): the BrokerPrincipal whose username is a prefix of the queue name,
or none. -/
def resolveOwner (principals : List String) (qname : String) : Option String :=
  principals.find? (fun u => u.isPrefixOf qname)

/-- Output of one reconciliation pass: the reconciled store, the names of
records created for newly observed queues, and the names of records dropped
because their queue left the broker. -/
structure ReconcileResult where
  store : List MQueue
  created : List String
  dropped : List String

/-- Modelled from the spec: the Reconciler (section 4.2), whose
implementation (`guardian.py`) is missing from the sources.  Creates a
record (unwarned, owner resolved by prefix convention) for every snapshot
queue absent from the store, drops every stored record absent from the
snapshot, and leaves records present in both untouched. -/
def reconcile (principals : List String) (store : List MQueue)
    (snap : List SnapQueue) : ReconcileResult :=
  let newNames := (snap.filter (fun s => !(nameInStore store s.name))).map
    (fun s => s.name)
  ⟨store.filter (queueInSnap snap) ++
     newNames.map (fun n => ⟨n, resolveOwner principals n, false⟩),
   newNames,
   (store.filter (fun q => !(queueInSnap snap q))).map (fun q => q.name)⟩

/-- The observed size the snapshot reports for a queue name (0 if absent;
every evaluated record's name comes from the snapshot). -/
def snapSize (snap : List SnapQueue) (n : String) : Int :=
  match snap.find? (fun s => s.name == n) with
  | some s => s.messagesReady
  | none => 0

/-- Outcome of evaluating a single reconciled record: the surviving record
(none if deleted), the names added to the deleted-set, the broker
`deleteQueue` invocations, the WARN actions executed, and the notification
attempts (address, queue name, dispatch result). -/
structure QueueOutcome where
  record : Option MQueue
  deleted : List String
  deleteCalls : List String
  warnsIssued : List String
  attempts : List (String × String × Bool)

/-- Modelled from the spec: the recipients of a WARN for a queue
(section 4.4): the owning Account's contact address if owned, and every
Notification row matching the queue. -/
def recipients (env : Env) (q : MQueue) : List String :=
  (match q.owner with
   | some p => (env.contact p).toList
   | none => []) ++
  (env.notifs.filter (fun r => r.2 == q.name)).map (fun r => r.1)

/-- Modelled from the spec: the Action Executor applied to one reconciled
record (section 4.4).  DELETE: call the Broker Gateway once; on success
remove the record and add the name to the deleted-set, on failure keep the
record.  WARN: attempt one notification per recipient (failures recorded,
never blocking), then set `warned := true` and persist.  NONE: no action. -/
def evalQueue (env : Env) (notifyOk : String → Bool) (size : Int)
    (q : MQueue) : QueueOutcome :=
  match thresholdPolicy env.warnSize env.deleteSize size q.warned with
  | QAction.DELETE =>
      if env.delOk q.name then ⟨none, [q.name], [q.name], [], []⟩
      else ⟨some q, [], [q.name], [], []⟩
  | QAction.WARN =>
      ⟨some ⟨q.name, q.owner, true⟩, [], [], [q.name],
       (recipients env q).map (fun a => (a, q.name, notifyOk a))⟩
  | QAction.NONE => ⟨some q, [], [], [], []⟩

/-- Result surface of one completed guardian cycle: the persisted store,
the deleted-set, the broker delete calls made, the WARN actions issued, the
notification attempts, and the reconciler's created/dropped names. -/
structure CycleResult where
  store : List MQueue
  deletedQueues : List String
  deleteCalls : List String
  warnsIssued : List String
  attempts : List (String × String × Bool)
  created : List String
  dropped : List String

/-- Modelled from the spec: one complete guardian cycle (section 4.6),
whose implementation (`guardian.py`, `PulseGuardian.monitor_queues`) is
missing from the sources: reconcile the snapshot against the store, then
evaluate and act on every reconciled record independently. -/
def monitorQueues (env : Env) (notifyOk : String → Bool)
    (store : List MQueue) (snap : List SnapQueue) : CycleResult :=
  let r := reconcile env.principals store snap
  let outs := r.store.map
    (fun q => evalQueue env notifyOk (snapSize snap q.name) q)
  ⟨outs.filterMap (fun o => o.record),
   (outs.map (fun o => o.deleted)).flatten,
   (outs.map (fun o => o.deleteCalls)).flatten,
   (outs.map (fun o => o.warnsIssued)).flatten,
   (outs.map (fun o => o.attempts)).flatten,
   r.created, r.dropped⟩

theorem nameInStore_iff {store : List MQueue} {n : String} :
    nameInStore store n = true ↔ ∃ q ∈ store, q.name = n := by
  simp [nameInStore, List.any_eq_true]

theorem queueInSnap_iff {snap : List SnapQueue} {q : MQueue} :
    queueInSnap snap q = true ↔ ∃ s ∈ snap, s.name = q.name := by
  simp [queueInSnap, List.any_eq_true]

theorem mem_reconcile_store {ps : List String} {st : List MQueue}
    {sn : List SnapQueue} {q : MQueue} :
    q ∈ (reconcile ps st sn).store ↔
      (q ∈ st ∧ queueInSnap sn q = true) ∨
      (∃ s ∈ sn, nameInStore st s.name = false ∧
        q = ⟨s.name, resolveOwner ps s.name, false⟩) := by
  simp only [reconcile, List.mem_append, List.mem_filter, List.mem_map,
    List.map_map, Function.comp, Bool.not_eq_true']
  constructor
  · rintro (⟨h1, h2⟩ | ⟨s, ⟨hs, hn⟩, hq⟩)
    · exact Or.inl ⟨h1, h2⟩
    · exact Or.inr ⟨s, hs, hn, hq.symm⟩
  · rintro (⟨h1, h2⟩ | ⟨s, hs, hn, hq⟩)
    · exact Or.inl ⟨h1, h2⟩
    · exact Or.inr ⟨s, ⟨hs, hn⟩, hq.symm⟩

theorem reconcile_store_inSnap {ps : List String} {st : List MQueue}
    {sn : List SnapQueue} {q : MQueue}
    (h : q ∈ (reconcile ps st sn).store) : queueInSnap sn q = true := by
  rcases mem_reconcile_store.mp h with ⟨_, h2⟩ | ⟨s, hs, _, hq⟩
  · exact h2
  · exact queueInSnap_iff.mpr ⟨s, hs, by rw [hq]⟩

theorem reconcile_covers_snap (ps : List String) (st : List MQueue)
    {sn : List SnapQueue} {s : SnapQueue} (hs : s ∈ sn) :
    nameInStore (reconcile ps st sn).store s.name = true := by
  cases hn : nameInStore st s.name with
  | false => exact nameInStore_iff.mpr ⟨⟨s.name, resolveOwner ps s.name, false⟩,
      mem_reconcile_store.mpr (Or.inr ⟨s, hs, hn, rfl⟩), rfl⟩
  | true =>
    obtain ⟨q, hq, hqn⟩ := nameInStore_iff.mp hn
    refine nameInStore_iff.mpr ⟨q, ?_, hqn⟩
    exact mem_reconcile_store.mpr
      (Or.inl ⟨hq, queueInSnap_iff.mpr ⟨s, hs, hqn.symm⟩⟩)

theorem reconcile_keeps {ps : List String} {st : List MQueue}
    {sn : List SnapQueue} {q : MQueue} (hq : q ∈ st)
    (hin : queueInSnap sn q = true) : q ∈ (reconcile ps st sn).store :=
  mem_reconcile_store.mpr (Or.inl ⟨hq, hin⟩)

theorem reconcile_names (ps : List String) (st : List MQueue)
    (sn : List SnapQueue) :
    ((reconcile ps st sn).store).map MQueue.name =
      (st.filter (queueInSnap sn)).map MQueue.name ++
      (sn.filter (fun s => !(nameInStore st s.name))).map SnapQueue.name := by
  simp only [reconcile, List.map_append, List.map_map]
  rfl

theorem reconcile_nodup (ps : List String) {st : List MQueue}
    {sn : List SnapQueue}
    (hndS : (st.map MQueue.name).Nodup)
    (hndN : (sn.map SnapQueue.name).Nodup) :
    (((reconcile ps st sn).store).map MQueue.name).Nodup := by
  rw [reconcile_names, List.nodup_append]
  refine ⟨((List.filter_sublist st).map MQueue.name).nodup hndS,
          ((List.filter_sublist sn).map SnapQueue.name).nodup hndN, ?_⟩
  intro n hn1 hn2
  simp only [List.mem_map, List.mem_filter, Bool.not_eq_true'] at hn1 hn2
  obtain ⟨q, ⟨hq, _⟩, hqn⟩ := hn1
  obtain ⟨s, ⟨hsn, hsf⟩, hsm⟩ := hn2
  have : nameInStore st s.name = true :=
    nameInStore_iff.mpr ⟨q, hq, by rw [hqn, hsm]⟩
  rw [hsf] at this
  exact Bool.false_ne_true this

theorem snapSize_eq_of_mem {sn : List SnapQueue}
    (hnd : (sn.map SnapQueue.name).Nodup) {s : SnapQueue} (hs : s ∈ sn) :
    snapSize sn s.name = s.messagesReady := by
  induction sn with
  | nil => cases hs
  | cons t tl ih =>
    simp only [List.map_cons, List.nodup_cons] at hnd
    unfold snapSize
    simp only [List.find?]
    cases hnm : (t.name == s.name) with
    | true =>
      rcases List.mem_cons.mp hs with h | h
      · rw [h]
      · exact absurd (List.mem_map.mpr ⟨s, h, (beq_iff_eq.mp hnm).symm⟩) hnd.1
    | false =>
      rcases List.mem_cons.mp hs with h | h
      · rw [h] at hnm
        simp at hnm
      · have := ih hnd.2 h
        unfold snapSize at this
        exact this

/-- Claim C5: running reconciliation a second time on an unchanged broker
snapshot and unchanged store performs no additional creates and no
additional deletes, and leaves the store unchanged; queues present in both
snapshot and store are carried over untouched by the first pass. -/
theorem reconcile_idempotent (ps : List String) (store : List MQueue)
    (snap : List SnapQueue) :
    (reconcile ps (reconcile ps store snap).store snap).created = [] ∧
    (reconcile ps (reconcile ps store snap).store snap).dropped = [] ∧
    (reconcile ps (reconcile ps store snap).store snap).store =
      (reconcile ps store snap).store ∧
    (∀ q ∈ store, queueInSnap snap q = true →
      q ∈ (reconcile ps store snap).store) := by
  have hcreated : (snap.filter
      (fun s => !(nameInStore (reconcile ps store snap).store s.name))) = [] := by
    rw [List.filter_eq_nil_iff]
    intro s hs
    simp [reconcile_covers_snap ps store hs]
  have hkept : (reconcile ps store snap).store.filter (queueInSnap snap) =
      (reconcile ps store snap).store :=
    List.filter_eq_self.mpr (fun q hq => reconcile_store_inSnap hq)
  have hdropped : ((reconcile ps store snap).store.filter
      (fun q => !(queueInSnap snap q))) = [] := by
    rw [List.filter_eq_nil_iff]
    intro q hq
    simp [reconcile_store_inSnap hq]
  refine ⟨?_, ?_, ?_, fun q hq hin => reconcile_keeps hq hin⟩
  · show (snap.filter _).map _ = []
    rw [hcreated]
    rfl
  · show ((reconcile ps store snap).store.filter _).map _ = []
    rw [hdropped]
    rfl
  · show (reconcile ps store snap).store.filter _ ++
      ((snap.filter _).map _).map _ = _
    rw [hcreated, hkept]
    simp

/-- Witness for C5 on a concrete store and snapshot. -/
theorem reconcile_idempotent_witness :
    (reconcile ["u"] (reconcile ["u"] [⟨"gone", none, true⟩]
      [⟨"u.q", 3⟩, ⟨"other", 7⟩]).store [⟨"u.q", 3⟩, ⟨"other", 7⟩]).created = [] ∧
    (reconcile ["u"] (reconcile ["u"] [⟨"gone", none, true⟩]
      [⟨"u.q", 3⟩, ⟨"other", 7⟩]).store [⟨"u.q", 3⟩, ⟨"other", 7⟩]).dropped = [] :=
  ⟨(reconcile_idempotent ["u"] [⟨"gone", none, true⟩]
      [⟨"u.q", 3⟩, ⟨"other", 7⟩]).1,
   (reconcile_idempotent ["u"] [⟨"gone", none, true⟩]
      [⟨"u.q", 3⟩, ⟨"other", 7⟩]).2.1⟩

theorem evalQueue_of_DELETE {env : Env} {no : String → Bool} {sz : Int}
    {q : MQueue}
    (h : thresholdPolicy env.warnSize env.deleteSize sz q.warned =
      QAction.DELETE) :
    evalQueue env no sz q =
      if env.delOk q.name then ⟨none, [q.name], [q.name], [], []⟩
      else ⟨some q, [], [q.name], [], []⟩ := by
  unfold evalQueue
  rw [h]

theorem evalQueue_of_WARN {env : Env} {no : String → Bool} {sz : Int}
    {q : MQueue}
    (h : thresholdPolicy env.warnSize env.deleteSize sz q.warned =
      QAction.WARN) :
    evalQueue env no sz q =
      ⟨some ⟨q.name, q.owner, true⟩, [], [], [q.name],
       (recipients env q).map (fun a => (a, q.name, no a))⟩ := by
  unfold evalQueue
  rw [h]

theorem evalQueue_of_NONE {env : Env} {no : String → Bool} {sz : Int}
    {q : MQueue}
    (h : thresholdPolicy env.warnSize env.deleteSize sz q.warned =
      QAction.NONE) :
    evalQueue env no sz q = ⟨some q, [], [], [], []⟩ := by
  unfold evalQueue
  rw [h]

theorem evalQueue_record_name {env : Env} {no : String → Bool} {sz : Int}
    {q q' : MQueue} (h : (evalQueue env no sz q).record = some q') :
    q'.name = q.name ∧ q'.owner = q.owner := by
  cases hpol : thresholdPolicy env.warnSize env.deleteSize sz q.warned with
  | DELETE =>
    rw [evalQueue_of_DELETE hpol] at h
    split at h <;> simp_all
  | WARN =>
    rw [evalQueue_of_WARN hpol] at h
    simp at h
    simp [← h]
  | NONE =>
    rw [evalQueue_of_NONE hpol] at h
    simp at h
    simp [← h]

theorem evalQueue_warned_record {env : Env} {no : String → Bool} {sz : Int}
    {q q' : MQueue} (hw : q.warned = true)
    (h : (evalQueue env no sz q).record = some q') : q' = q := by
  cases hpol : thresholdPolicy env.warnSize env.deleteSize sz q.warned with
  | DELETE =>
    rw [evalQueue_of_DELETE hpol] at h
    split at h <;> simp_all
  | WARN =>
    rw [thresholdPolicy_eq_WARN] at hpol
    rw [hw] at hpol
    simp at hpol
  | NONE =>
    rw [evalQueue_of_NONE hpol] at h
    simp at h
    exact h.symm

theorem evalQueue_record_none {env : Env} {no : String → Bool} {sz : Int}
    {q : MQueue} :
    (evalQueue env no sz q).record = none ↔
      (thresholdPolicy env.warnSize env.deleteSize sz q.warned =
        QAction.DELETE ∧ env.delOk q.name = true) := by
  cases hpol : thresholdPolicy env.warnSize env.deleteSize sz q.warned with
  | DELETE =>
    rw [evalQueue_of_DELETE hpol]
    split <;> simp_all
  | WARN => rw [evalQueue_of_WARN hpol]; simp
  | NONE => rw [evalQueue_of_NONE hpol]; simp

theorem evalQueue_mem_deleted {env : Env} {no : String → Bool} {sz : Int}
    {q : MQueue} {n : String} (h : n ∈ (evalQueue env no sz q).deleted) :
    n = q.name ∧
    thresholdPolicy env.warnSize env.deleteSize sz q.warned =
      QAction.DELETE ∧
    env.delOk q.name = true := by
  cases hpol : thresholdPolicy env.warnSize env.deleteSize sz q.warned with
  | DELETE =>
    rw [evalQueue_of_DELETE hpol] at h
    split at h <;> simp_all
  | WARN => rw [evalQueue_of_WARN hpol] at h; simp at h
  | NONE => rw [evalQueue_of_NONE hpol] at h; simp at h

theorem evalQueue_mem_deleteCalls {env : Env} {no : String → Bool} {sz : Int}
    {q : MQueue} {n : String} (h : n ∈ (evalQueue env no sz q).deleteCalls) :
    n = q.name ∧
    thresholdPolicy env.warnSize env.deleteSize sz q.warned =
      QAction.DELETE := by
  cases hpol : thresholdPolicy env.warnSize env.deleteSize sz q.warned with
  | DELETE =>
    rw [evalQueue_of_DELETE hpol] at h
    split at h <;> simp_all
  | WARN => rw [evalQueue_of_WARN hpol] at h; simp at h
  | NONE => rw [evalQueue_of_NONE hpol] at h; simp at h

theorem evalQueue_mem_warnsIssued {env : Env} {no : String → Bool} {sz : Int}
    {q : MQueue} {n : String} (h : n ∈ (evalQueue env no sz q).warnsIssued) :
    n = q.name ∧
    thresholdPolicy env.warnSize env.deleteSize sz q.warned = QAction.WARN := by
  cases hpol : thresholdPolicy env.warnSize env.deleteSize sz q.warned with
  | DELETE =>
    rw [evalQueue_of_DELETE hpol] at h
    split at h <;> simp_all
  | WARN => rw [evalQueue_of_WARN hpol] at h; simp_all
  | NONE => rw [evalQueue_of_NONE hpol] at h; simp at h

theorem evalQueue_mem_attempts {env : Env} {no : String → Bool} {sz : Int}
    {q : MQueue} {t : String × String × Bool}
    (h : t ∈ (evalQueue env no sz q).attempts) :
    t.2.1 = q.name ∧
    thresholdPolicy env.warnSize env.deleteSize sz q.warned = QAction.WARN := by
  cases hpol : thresholdPolicy env.warnSize env.deleteSize sz q.warned with
  | DELETE =>
    rw [evalQueue_of_DELETE hpol] at h
    split at h <;> simp_all
  | WARN =>
    rw [evalQueue_of_WARN hpol] at h
    simp only [List.mem_map] at h
    obtain ⟨a, _, ht⟩ := h
    rw [← ht]
    exact ⟨rfl, rfl⟩
  | NONE => rw [evalQueue_of_NONE hpol] at h; simp at h

theorem mem_monitor_store {env : Env} {no : String → Bool}
    {st : List MQueue} {sn : List SnapQueue} {q' : MQueue} :
    q' ∈ (monitorQueues env no st sn).store ↔
      ∃ q ∈ (reconcile env.principals st sn).store,
        (evalQueue env no (snapSize sn q.name) q).record = some q' := by
  simp [monitorQueues, List.mem_filterMap, List.mem_map]

theorem mem_monitor_deleted {env : Env} {no : String → Bool}
    {st : List MQueue} {sn : List SnapQueue} {n : String} :
    n ∈ (monitorQueues env no st sn).deletedQueues ↔
      ∃ q ∈ (reconcile env.principals st sn).store,
        n ∈ (evalQueue env no (snapSize sn q.name) q).deleted := by
  simp [monitorQueues, List.mem_flatten, List.mem_map]

theorem mem_monitor_deleteCalls {env : Env} {no : String → Bool}
    {st : List MQueue} {sn : List SnapQueue} {n : String} :
    n ∈ (monitorQueues env no st sn).deleteCalls ↔
      ∃ q ∈ (reconcile env.principals st sn).store,
        n ∈ (evalQueue env no (snapSize sn q.name) q).deleteCalls := by
  simp [monitorQueues, List.mem_flatten, List.mem_map]

theorem mem_monitor_warnsIssued {env : Env} {no : String → Bool}
    {st : List MQueue} {sn : List SnapQueue} {n : String} :
    n ∈ (monitorQueues env no st sn).warnsIssued ↔
      ∃ q ∈ (reconcile env.principals st sn).store,
        n ∈ (evalQueue env no (snapSize sn q.name) q).warnsIssued := by
  simp [monitorQueues, List.mem_flatten, List.mem_map]

theorem store_name_unique {st : List MQueue}
    (hnd : (st.map MQueue.name).Nodup) {q r : MQueue}
    (hq : q ∈ st) (hr : r ∈ st) (h : r.name = q.name) : r = q :=
  List.inj_on_of_nodup_map hnd hr hq h

/-- Claim C3: once a MonitoredQueue record's `warned` flag is true, it stays
true in every surviving record of that name after a guardian cycle (a size
drop never resets it), and the cycle issues no WARN action for that record
(so, inductively, no subsequent cycle warns it again while it exists). -/
theorem at_most_once_warning (env : Env) (no : String → Bool)
    (st : List MQueue) (sn : List SnapQueue) (q : MQueue)
    (hq : q ∈ st) (hw : q.warned = true)
    (hnd : (st.map MQueue.name).Nodup) :
    (∀ q' ∈ (monitorQueues env no st sn).store,
       q'.name = q.name → q'.warned = true) ∧
    q.name ∉ (monitorQueues env no st sn).warnsIssued := by
  constructor
  · intro q' hmem hname
    obtain ⟨r, hr, hrec⟩ := mem_monitor_store.mp hmem
    have hrname : q'.name = r.name := (evalQueue_record_name hrec).1
    rcases mem_reconcile_store.mp hr with ⟨hrst, _⟩ | ⟨s, _, hnof, hfresh⟩
    · have hrq : r = q := store_name_unique hnd hq hrst (by rw [← hrname, hname])
      rw [hrq] at hrec
      have hq' : q' = q := evalQueue_warned_record hw hrec
      rw [hq']
      exact hw
    · exfalso
      have hsn : s.name = q.name := by
        have : r.name = s.name := by rw [hfresh]
        rw [← this, ← hrname, hname]
      have : nameInStore st s.name = true :=
        nameInStore_iff.mpr ⟨q, hq, hsn.symm⟩
      rw [hnof] at this
      exact Bool.false_ne_true this
  · intro hmem
    obtain ⟨r, hr, hwarn⟩ := mem_monitor_warnsIssued.mp hmem
    obtain ⟨heq, hpol⟩ := evalQueue_mem_warnsIssued hwarn
    have hrw : r.warned = false :=
      ((thresholdPolicy_eq_WARN _ _ _ _).mp hpol).2.2
    rcases mem_reconcile_store.mp hr with ⟨hrst, _⟩ | ⟨s, _, hnof, hfresh⟩
    · have hrq : r = q := store_name_unique hnd hq hrst heq.symm
      rw [hrq, hw] at hrw
      exact absurd hrw (by simp)
    · have hsn : s.name = q.name := by
        have : r.name = s.name := by rw [hfresh]
        rw [← this, heq]
      have : nameInStore st s.name = true :=
        nameInStore_iff.mpr ⟨q, hq, hsn.symm⟩
      rw [hnof] at this
      exact Bool.false_ne_true this

/-- Witness for C3: a record already warned, over the warn threshold again,
survives the cycle still warned and receives no further WARN. -/
theorem at_most_once_warning_witness :
    (∀ q' ∈ (monitorQueues ⟨100, 500, fun _ => true, fun _ => none, [],
        [("a@x", "q")]⟩ (fun _ => true)
        [⟨"q", none, true⟩] [⟨"q", 150⟩]).store,
       q'.name = (⟨"q", none, true⟩ : MQueue).name → q'.warned = true) ∧
    (⟨"q", none, true⟩ : MQueue).name ∉
      (monitorQueues ⟨100, 500, fun _ => true, fun _ => none, [],
        [("a@x", "q")]⟩ (fun _ => true)
        [⟨"q", none, true⟩] [⟨"q", 150⟩]).warnsIssued :=
  at_most_once_warning _ _ _ _ ⟨"q", none, true⟩ (by decide) rfl (by decide)

theorem monitor_dropped (env : Env) (no : String → Bool)
    (st : List MQueue) (sn : List SnapQueue) :
    (monitorQueues env no st sn).dropped =
      (st.filter (fun q => !(queueInSnap sn q))).map MQueue.name := rfl

theorem monitor_created (env : Env) (no : String → Bool)
    (st : List MQueue) (sn : List SnapQueue) :
    (monitorQueues env no st sn).created =
      (sn.filter (fun s => !(nameInStore st s.name))).map SnapQueue.name := rfl

/-- Claim C4 counterexample: with thresholds 100/500, a stored queue "q"
that the snapshot reports at 600 messages is deleted by the cycle, so after
the completed cycle no record for "q" exists even though the snapshot of
that cycle reported it: existence of a record is not equivalent to presence
in the snapshot. -/
theorem store_snapshot_iff_counterexample :
    ¬ (nameInStore (monitorQueues ⟨100, 500, fun _ => true, fun _ => none,
          [], []⟩ (fun _ => true)
          [⟨"q", none, false⟩] [⟨"q", 600⟩]).store "q" = true ↔
       (∃ s ∈ ([⟨"q", 600⟩] : List SnapQueue), s.name = "q")) := by
  decide

/-- Claim C4 (amended): after a completed guardian cycle, a record exists in
the store if and only if the broker snapshot of that cycle reported the
queue and the queue's name is not in the cycle's deleted-set; and a stored
queue absent from the snapshot is removed from the store (its name appears
among the cycle's dropped records) without any broker deleteQueue call
being issued for it. -/
theorem store_matches_snapshot (env : Env) (no : String → Bool)
    (st : List MQueue) (sn : List SnapQueue)
    (hndS : (st.map MQueue.name).Nodup)
    (hndN : (sn.map SnapQueue.name).Nodup) :
    (∀ n : String,
      nameInStore (monitorQueues env no st sn).store n = true ↔
        ((∃ s ∈ sn, s.name = n) ∧
         n ∉ (monitorQueues env no st sn).deletedQueues)) ∧
    (∀ q ∈ st, queueInSnap sn q = false →
      nameInStore (monitorQueues env no st sn).store q.name = false ∧
      q.name ∈ (monitorQueues env no st sn).dropped ∧
      q.name ∉ (monitorQueues env no st sn).deleteCalls) := by
  have hndR := reconcile_nodup env.principals hndS hndN
  constructor
  · intro n
    constructor
    · intro hmem
      obtain ⟨q', hq', hname⟩ := nameInStore_iff.mp hmem
      obtain ⟨r, hr, hrec⟩ := mem_monitor_store.mp hq'
      have hrname : q'.name = r.name := (evalQueue_record_name hrec).1
      obtain ⟨s, hs, hsname⟩ := queueInSnap_iff.mp (reconcile_store_inSnap hr)
      refine ⟨⟨s, hs, by rw [hsname, ← hrname, hname]⟩, ?_⟩
      intro hdel
      obtain ⟨r2, hr2, hdel2⟩ := mem_monitor_deleted.mp hdel
      obtain ⟨hn2, hpol2, hok2⟩ := evalQueue_mem_deleted hdel2
      have : r2 = r := store_name_unique hndR hr hr2
        (by rw [← hn2, ← hname, hrname])
      rw [this] at hpol2 hok2
      have : (evalQueue env no (snapSize sn r.name) r).record = none :=
        evalQueue_record_none.mpr ⟨hpol2, hok2⟩
      rw [hrec] at this
      cases this
    · rintro ⟨⟨s, hs, hsname⟩, hndel⟩
      obtain ⟨r, hr, hrname⟩ :=
        nameInStore_iff.mp (reconcile_covers_snap env.principals st hs)
      cases hrec : (evalQueue env no (snapSize sn r.name) r).record with
      | none =>
        exfalso
        obtain ⟨hpol, hok⟩ := evalQueue_record_none.mp hrec
        refine hndel (mem_monitor_deleted.mpr ⟨r, hr, ?_⟩)
        rw [evalQueue_of_DELETE hpol, ← hsname, ← hrname]
        simp [hok]
      | some q' =>
        refine nameInStore_iff.mpr ⟨q', mem_monitor_store.mpr ⟨r, hr, hrec⟩, ?_⟩
        rw [(evalQueue_record_name hrec).1, hrname, hsname]
  · intro q hq hout
    have habsent : ∀ r ∈ (reconcile env.principals st sn).store,
        r.name ≠ q.name := by
      intro r hr hrn
      obtain ⟨s, hs, hsname⟩ := queueInSnap_iff.mp (reconcile_store_inSnap hr)
      have : queueInSnap sn q = true :=
        queueInSnap_iff.mpr ⟨s, hs, by rw [hsname, hrn]⟩
      rw [hout] at this
      cases this
    refine ⟨?_, ?_, ?_⟩
    · cases hmem : nameInStore (monitorQueues env no st sn).store q.name with
      | false => rfl
      | true =>
        exfalso
        obtain ⟨q', hq', hname⟩ := nameInStore_iff.mp hmem
        obtain ⟨r, hr, hrec⟩ := mem_monitor_store.mp hq'
        exact habsent r hr (by rw [← (evalQueue_record_name hrec).1, hname])
    · rw [monitor_dropped]
      exact List.mem_map.mpr ⟨q, List.mem_filter.mpr ⟨hq, by rw [hout]; rfl⟩, rfl⟩
    · intro hcall
      obtain ⟨r, hr, hc⟩ := mem_monitor_deleteCalls.mp hcall
      exact habsent r hr (evalQueue_mem_deleteCalls hc).1.symm

/-- Witness for C4 (amended): a cycle that deletes an over-threshold queue
and drops a vanished one satisfies the amended invariant at both names. -/
theorem store_matches_snapshot_witness :
    (nameInStore (monitorQueues ⟨100, 500, fun _ => true, fun _ => none,
        [], []⟩ (fun _ => true)
        [⟨"q", none, false⟩, ⟨"gone", none, true⟩] [⟨"q", 600⟩]).store "q" =
        true ↔
      ((∃ s ∈ ([⟨"q", 600⟩] : List SnapQueue), s.name = "q") ∧
       "q" ∉ (monitorQueues ⟨100, 500, fun _ => true, fun _ => none,
        [], []⟩ (fun _ => true)
        [⟨"q", none, false⟩, ⟨"gone", none, true⟩]
        [⟨"q", 600⟩]).deletedQueues)) ∧
    ((⟨"gone", none, true⟩ : MQueue) ∈
        [(⟨"q", none, false⟩ : MQueue), ⟨"gone", none, true⟩] →
      queueInSnap [⟨"q", 600⟩] ⟨"gone", none, true⟩ = false →
      nameInStore (monitorQueues ⟨100, 500, fun _ => true, fun _ => none,
        [], []⟩ (fun _ => true)
        [⟨"q", none, false⟩, ⟨"gone", none, true⟩] [⟨"q", 600⟩]).store
        (⟨"gone", none, true⟩ : MQueue).name = false) :=
  ⟨(store_matches_snapshot ⟨100, 500, fun _ => true, fun _ => none, [], []⟩
      (fun _ => true) [⟨"q", none, false⟩, ⟨"gone", none, true⟩] [⟨"q", 600⟩]
      (by decide) (by decide)).1 "q",
   fun h1 h2 => ((store_matches_snapshot
      ⟨100, 500, fun _ => true, fun _ => none, [], []⟩
      (fun _ => true) [⟨"q", none, false⟩, ⟨"gone", none, true⟩] [⟨"q", 600⟩]
      (by decide) (by decide)).2 ⟨"gone", none, true⟩ h1 h2).1⟩

theorem exists_split_unique_name {recs : List MQueue} {q : MQueue}
    (hq : q ∈ recs) (hnd : (recs.map MQueue.name).Nodup) :
    ∃ l1 l2, recs = l1 ++ q :: l2 ∧
      (∀ r ∈ l1, r.name ≠ q.name) ∧ (∀ r ∈ l2, r.name ≠ q.name) := by
  obtain ⟨l1, l2, rfl⟩ := List.append_of_mem hq
  rw [List.map_append, List.map_cons] at hnd
  obtain ⟨h1, h2, hd⟩ := List.nodup_append.mp hnd
  refine ⟨l1, l2, rfl, ?_, ?_⟩
  · intro r hr hrn
    exact hd (List.mem_map.mpr ⟨r, hr, hrn⟩) (List.mem_cons_self _ _)
  · intro r hr hrn
    exact (List.nodup_cons.mp h2).1 (List.mem_map.mpr ⟨r, hr, hrn.symm ▸ rfl⟩)

theorem count_flatten_split (f : MQueue → List String) (l1 l2 : List MQueue)
    (q : MQueue) (n : String)
    (h1 : ∀ r ∈ l1, ∀ m ∈ f r, m ≠ n)
    (h2 : ∀ r ∈ l2, ∀ m ∈ f r, m ≠ n) :
    (((l1 ++ q :: l2).map f).flatten).count n = (f q).count n := by
  rw [List.map_append, List.map_cons, List.flatten_append, List.flatten_cons,
    List.count_append, List.count_append]
  have z1 : (List.map f l1).flatten.count n = 0 := by
    rw [List.count_eq_zero]
    intro hmem
    obtain ⟨l, hl, hm⟩ := List.mem_flatten.mp hmem
    obtain ⟨r, hr, hrf⟩ := List.mem_map.mp hl
    exact h1 r hr n (hrf ▸ hm) rfl
  have z2 : (List.map f l2).flatten.count n = 0 := by
    rw [List.count_eq_zero]
    intro hmem
    obtain ⟨l, hl, hm⟩ := List.mem_flatten.mp hmem
    obtain ⟨r, hr, hrf⟩ := List.mem_map.mp hl
    exact h2 r hr n (hrf ▸ hm) rfl
  omega

theorem countP_flatten_split {β : Type} (p : β → Bool) (f : MQueue → List β)
    (l1 l2 : List MQueue) (q : MQueue)
    (h1 : ∀ r ∈ l1, ∀ m ∈ f r, p m = false)
    (h2 : ∀ r ∈ l2, ∀ m ∈ f r, p m = false) :
    (((l1 ++ q :: l2).map f).flatten).countP p = (f q).countP p := by
  rw [List.map_append, List.map_cons, List.flatten_append, List.flatten_cons,
    List.countP_append, List.countP_append]
  have z1 : (List.map f l1).flatten.countP p = 0 := by
    rw [List.countP_eq_zero]
    intro m hmem
    obtain ⟨l, hl, hm⟩ := List.mem_flatten.mp hmem
    obtain ⟨r, hr, hrf⟩ := List.mem_map.mp hl
    rw [h1 r hr m (hrf ▸ hm)]
    exact Bool.false_ne_true
  have z2 : (List.map f l2).flatten.countP p = 0 := by
    rw [List.countP_eq_zero]
    intro m hmem
    obtain ⟨l, hl, hm⟩ := List.mem_flatten.mp hmem
    obtain ⟨r, hr, hrf⟩ := List.mem_map.mp hl
    rw [h2 r hr m (hrf ▸ hm)]
    exact Bool.false_ne_true
  omega

theorem monitor_deleteCalls_eq (env : Env) (no : String → Bool)
    (st : List MQueue) (sn : List SnapQueue) :
    (monitorQueues env no st sn).deleteCalls =
      ((reconcile env.principals st sn).store.map
        (fun q => (evalQueue env no (snapSize sn q.name) q).deleteCalls)).flatten := by
  simp only [monitorQueues, List.map_map]
  rfl

theorem monitor_attempts_eq (env : Env) (no : String → Bool)
    (st : List MQueue) (sn : List SnapQueue) :
    (monitorQueues env no st sn).attempts =
      ((reconcile env.principals st sn).store.map
        (fun q => (evalQueue env no (snapSize sn q.name) q).attempts)).flatten := by
  simp only [monitorQueues, List.map_map]
  rfl

/-- Claim C6: a queue whose snapshot size exceeds `deleteSize` triggers
exactly one Broker Gateway `deleteQueue` invocation in the cycle; if the
call succeeds, its record is removed from the store and its name appears
in the cycle's deleted-set result. -/
theorem delete_scenario (env : Env) (no : String → Bool)
    (st : List MQueue) (sn : List SnapQueue) (q : MQueue) (s : SnapQueue)
    (hq : q ∈ st) (hs : s ∈ sn) (hname : s.name = q.name)
    (hsz : env.deleteSize < s.messagesReady)
    (hndS : (st.map MQueue.name).Nodup)
    (hndN : (sn.map SnapQueue.name).Nodup) :
    (monitorQueues env no st sn).deleteCalls.count q.name = 1 ∧
    (env.delOk q.name = true →
      nameInStore (monitorQueues env no st sn).store q.name = false ∧
      q.name ∈ (monitorQueues env no st sn).deletedQueues) := by
  have hin : queueInSnap sn q = true := queueInSnap_iff.mpr ⟨s, hs, hname⟩
  have hqrec : q ∈ (reconcile env.principals st sn).store :=
    reconcile_keeps hq hin
  have hndR := reconcile_nodup env.principals hndS hndN
  have hsize : snapSize sn q.name = s.messagesReady := by
    rw [← hname]
    exact snapSize_eq_of_mem hndN hs
  have hpol : thresholdPolicy env.warnSize env.deleteSize
      (snapSize sn q.name) q.warned = QAction.DELETE :=
    (thresholdPolicy_eq_DELETE _ _ _ _).mpr (by rw [hsize]; exact hsz)
  constructor
  · obtain ⟨l1, l2, hsplit, hl1, hl2⟩ := exists_split_unique_name hqrec hndR
    rw [monitor_deleteCalls_eq, hsplit]
    rw [count_flatten_split _ _ _ _ _
      (fun r hr m hm => by
        rw [(evalQueue_mem_deleteCalls hm).1]
        exact hl1 r hr)
      (fun r hr m hm => by
        rw [(evalQueue_mem_deleteCalls hm).1]
        exact hl2 r hr)]
    rw [evalQueue_of_DELETE hpol]
    split <;> simp
  · intro hok
    constructor
    · cases hmem : nameInStore (monitorQueues env no st sn).store q.name with
      | false => rfl
      | true =>
        exfalso
        obtain ⟨q', hq', hqn⟩ := nameInStore_iff.mp hmem
        obtain ⟨r, hr, hrec⟩ := mem_monitor_store.mp hq'
        have : r = q := store_name_unique hndR hqrec hr
          (by rw [← (evalQueue_record_name hrec).1, hqn])
        rw [this] at hrec
        have hnone : (evalQueue env no (snapSize sn q.name) q).record = none :=
          evalQueue_record_none.mpr ⟨hpol, hok⟩
        rw [hrec] at hnone
        cases hnone
    · refine mem_monitor_deleted.mpr ⟨q, hqrec, ?_⟩
      rw [evalQueue_of_DELETE hpol]
      simp [hok]

/-- Witness for C6: a single over-threshold queue is delete-called once,
removed from the store, and reported in the deleted-set. -/
theorem delete_scenario_witness :
    (monitorQueues ⟨100, 500, fun _ => true, fun _ => none, [], []⟩
      (fun _ => true) [⟨"q", none, false⟩]
      [⟨"q", 600⟩]).deleteCalls.count (⟨"q", none, false⟩ : MQueue).name = 1 ∧
    (nameInStore (monitorQueues ⟨100, 500, fun _ => true, fun _ => none,
        [], []⟩ (fun _ => true) [⟨"q", none, false⟩] [⟨"q", 600⟩]).store
      (⟨"q", none, false⟩ : MQueue).name = false ∧
     (⟨"q", none, false⟩ : MQueue).name ∈
      (monitorQueues ⟨100, 500, fun _ => true, fun _ => none, [], []⟩
        (fun _ => true) [⟨"q", none, false⟩] [⟨"q", 600⟩]).deletedQueues) :=
  ⟨(delete_scenario ⟨100, 500, fun _ => true, fun _ => none, [], []⟩
      (fun _ => true) [⟨"q", none, false⟩] [⟨"q", 600⟩]
      ⟨"q", none, false⟩ ⟨"q", 600⟩ (by decide) (by decide) rfl (by decide)
      (by decide) (by decide)).1,
   (delete_scenario ⟨100, 500, fun _ => true, fun _ => none, [], []⟩
      (fun _ => true) [⟨"q", none, false⟩] [⟨"q", 600⟩]
      ⟨"q", none, false⟩ ⟨"q", 600⟩ (by decide) (by decide) rfl (by decide)
      (by decide) (by decide)).2 rfl⟩

/-- Claim C7: a failed broker delete for queue X does not abort the cycle:
queue Y, also over the delete threshold in the same cycle, is still deleted,
while X's record is retained unchanged for the next cycle and X is not
reported deleted. -/
theorem failure_isolation (env : Env) (no : String → Bool)
    (st : List MQueue) (sn : List SnapQueue)
    (qX qY : MQueue) (sX sY : SnapQueue)
    (hqX : qX ∈ st) (hqY : qY ∈ st) (hsX : sX ∈ sn) (hsY : sY ∈ sn)
    (hnX : sX.name = qX.name) (hnY : sY.name = qY.name)
    (hszX : env.deleteSize < sX.messagesReady)
    (hszY : env.deleteSize < sY.messagesReady)
    (hfX : env.delOk qX.name = false) (hokY : env.delOk qY.name = true)
    (hndS : (st.map MQueue.name).Nodup)
    (hndN : (sn.map SnapQueue.name).Nodup) :
    qX ∈ (monitorQueues env no st sn).store ∧
    qX.name ∉ (monitorQueues env no st sn).deletedQueues ∧
    qY.name ∈ (monitorQueues env no st sn).deletedQueues ∧
    nameInStore (monitorQueues env no st sn).store qY.name = false := by
  have hndR := reconcile_nodup env.principals hndS hndN
  have hqXrec : qX ∈ (reconcile env.principals st sn).store :=
    reconcile_keeps hqX (queueInSnap_iff.mpr ⟨sX, hsX, hnX⟩)
  have hqYrec : qY ∈ (reconcile env.principals st sn).store :=
    reconcile_keeps hqY (queueInSnap_iff.mpr ⟨sY, hsY, hnY⟩)
  have hsizeX : snapSize sn qX.name = sX.messagesReady := by
    rw [← hnX]
    exact snapSize_eq_of_mem hndN hsX
  have hsizeY : snapSize sn qY.name = sY.messagesReady := by
    rw [← hnY]
    exact snapSize_eq_of_mem hndN hsY
  have hpolX : thresholdPolicy env.warnSize env.deleteSize
      (snapSize sn qX.name) qX.warned = QAction.DELETE :=
    (thresholdPolicy_eq_DELETE _ _ _ _).mpr (by rw [hsizeX]; exact hszX)
  have hpolY : thresholdPolicy env.warnSize env.deleteSize
      (snapSize sn qY.name) qY.warned = QAction.DELETE :=
    (thresholdPolicy_eq_DELETE _ _ _ _).mpr (by rw [hsizeY]; exact hszY)
  refine ⟨?_, ?_, ?_, ?_⟩
  · refine mem_monitor_store.mpr ⟨qX, hqXrec, ?_⟩
    rw [evalQueue_of_DELETE hpolX]
    simp [hfX]
  · intro hmem
    obtain ⟨r, hr, hdel⟩ := mem_monitor_deleted.mp hmem
    obtain ⟨hn, _, hok⟩ := evalQueue_mem_deleted hdel
    have : r = qX := store_name_unique hndR hqXrec hr hn.symm
    rw [this] at hok
    rw [hfX] at hok
    cases hok
  · refine mem_monitor_deleted.mpr ⟨qY, hqYrec, ?_⟩
    rw [evalQueue_of_DELETE hpolY]
    simp [hokY]
  · cases hmem : nameInStore (monitorQueues env no st sn).store qY.name with
    | false => rfl
    | true =>
      exfalso
      obtain ⟨q', hq', hqn⟩ := nameInStore_iff.mp hmem
      obtain ⟨r, hr, hrec⟩ := mem_monitor_store.mp hq'
      have : r = qY := store_name_unique hndR hqYrec hr
        (by rw [← (evalQueue_record_name hrec).1, hqn])
      rw [this] at hrec
      have hnone : (evalQueue env no (snapSize sn qY.name) qY).record = none :=
        evalQueue_record_none.mpr ⟨hpolY, hokY⟩
      rw [hrec] at hnone
      cases hnone

/-- Witness for C7: the broker refuses to delete "x" but deletes "y"; one
cycle still deletes "y" and keeps "x"'s record. -/
theorem failure_isolation_witness :
    (⟨"x", none, false⟩ : MQueue) ∈
      (monitorQueues ⟨100, 500, fun n => n == "y", fun _ => none, [], []⟩
        (fun _ => true) [⟨"x", none, false⟩, ⟨"y", none, false⟩]
        [⟨"x", 600⟩, ⟨"y", 700⟩]).store ∧
    (⟨"x", none, false⟩ : MQueue).name ∉
      (monitorQueues ⟨100, 500, fun n => n == "y", fun _ => none, [], []⟩
        (fun _ => true) [⟨"x", none, false⟩, ⟨"y", none, false⟩]
        [⟨"x", 600⟩, ⟨"y", 700⟩]).deletedQueues ∧
    (⟨"y", none, false⟩ : MQueue).name ∈
      (monitorQueues ⟨100, 500, fun n => n == "y", fun _ => none, [], []⟩
        (fun _ => true) [⟨"x", none, false⟩, ⟨"y", none, false⟩]
        [⟨"x", 600⟩, ⟨"y", 700⟩]).deletedQueues ∧
    nameInStore (monitorQueues ⟨100, 500, fun n => n == "y", fun _ => none,
        [], []⟩ (fun _ => true) [⟨"x", none, false⟩, ⟨"y", none, false⟩]
        [⟨"x", 600⟩, ⟨"y", 700⟩]).store
      (⟨"y", none, false⟩ : MQueue).name = false :=
  failure_isolation ⟨100, 500, fun n => n == "y", fun _ => none, [], []⟩
    (fun _ => true) [⟨"x", none, false⟩, ⟨"y", none, false⟩]
    [⟨"x", 600⟩, ⟨"y", 700⟩]
    ⟨"x", none, false⟩ ⟨"y", none, false⟩ ⟨"x", 600⟩ ⟨"y", 700⟩
    (by decide) (by decide) (by decide) (by decide) rfl rfl
    (by decide) (by decide) (by decide) (by decide) (by decide) (by decide)

/-- Claim C8: when the Threshold Policy returns WARN for a queue, the cycle
persists the record with `warned = true` for every notification-dispatch
outcome (dispatch failures never block the flag), the queue is neither
deleted nor delete-called, and exactly one notification attempt is made for
a recipient with exactly one matching Notification row (and whose address
is not also the owner's contact address). -/
theorem warn_scenario (env : Env) (st : List MQueue) (sn : List SnapQueue)
    (q : MQueue) (s : SnapQueue) (a : String)
    (hq : q ∈ st) (hs : s ∈ sn) (hname : s.name = q.name)
    (hw : q.warned = false)
    (h1 : env.warnSize < s.messagesReady)
    (h2 : s.messagesReady ≤ env.deleteSize)
    (hndS : (st.map MQueue.name).Nodup)
    (hndN : (sn.map SnapQueue.name).Nodup)
    (hrow : env.notifs.countP
      (fun r => r.1 == a && r.2 == q.name) = 1)
    (hc : ∀ p, q.owner = some p → env.contact p ≠ some a) :
    ∀ no : String → Bool,
      (⟨q.name, q.owner, true⟩ : MQueue) ∈ (monitorQueues env no st sn).store ∧
      q.name ∉ (monitorQueues env no st sn).deletedQueues ∧
      q.name ∉ (monitorQueues env no st sn).deleteCalls ∧
      (monitorQueues env no st sn).attempts.countP
        (fun t => t.1 == a && t.2.1 == q.name) = 1 := by
  intro no
  have hndR := reconcile_nodup env.principals hndS hndN
  have hqrec : q ∈ (reconcile env.principals st sn).store :=
    reconcile_keeps hq (queueInSnap_iff.mpr ⟨s, hs, hname⟩)
  have hsize : snapSize sn q.name = s.messagesReady := by
    rw [← hname]
    exact snapSize_eq_of_mem hndN hs
  have hpol : thresholdPolicy env.warnSize env.deleteSize
      (snapSize sn q.name) q.warned = QAction.WARN :=
    (thresholdPolicy_eq_WARN _ _ _ _).mpr
      ⟨by rw [hsize]; exact h1, by rw [hsize]; exact h2, hw⟩
  refine ⟨?_, ?_, ?_, ?_⟩
  · refine mem_monitor_store.mpr ⟨q, hqrec, ?_⟩
    rw [evalQueue_of_WARN hpol]
  · intro hmem
    obtain ⟨r, hr, hdel⟩ := mem_monitor_deleted.mp hmem
    obtain ⟨hn, hpolr, _⟩ := evalQueue_mem_deleted hdel
    have : r = q := store_name_unique hndR hqrec hr hn.symm
    rw [this, hpol] at hpolr
    cases hpolr
  · intro hmem
    obtain ⟨r, hr, hcall⟩ := mem_monitor_deleteCalls.mp hmem
    obtain ⟨hn, hpolr⟩ := evalQueue_mem_deleteCalls hcall
    have : r = q := store_name_unique hndR hqrec hr hn.symm
    rw [this, hpol] at hpolr
    cases hpolr
  · obtain ⟨l1, l2, hsplit, hl1, hl2⟩ := exists_split_unique_name hqrec hndR
    rw [monitor_attempts_eq, hsplit]
    rw [countP_flatten_split _ _ _ _ _
      (fun r hr t ht => by
        have htn : t.2.1 = r.name := (evalQueue_mem_attempts ht).1
        have : (t.2.1 == q.name) = false :=
          beq_eq_false_iff_ne.mpr (by rw [htn]; exact hl1 r hr)
        simp [this])
      (fun r hr t ht => by
        have htn : t.2.1 = r.name := (evalQueue_mem_attempts ht).1
        have : (t.2.1 == q.name) = false :=
          beq_eq_false_iff_ne.mpr (by rw [htn]; exact hl2 r hr)
        simp [this])]
    rw [evalQueue_of_WARN hpol]
    show ((recipients env q).map (fun x => (x, q.name, no x))).countP _ = 1
    rw [List.countP_map]
    rw [List.countP_congr (q := fun x => x == a)
      (fun x _ => by simp [Function.comp])]
    unfold recipients
    rw [List.countP_append]
    have howner : (match q.owner with
        | some p => (env.contact p).toList
        | none => []).countP (fun x => x == a) = 0 := by
      rw [List.countP_eq_zero]
      intro x hx hxa
      have hxa' : x = a := by simpa using hxa
      subst hxa'
      cases hop : q.owner with
      | none => rw [hop] at hx; cases hx
      | some p =>
        rw [hop] at hx
        simp only [Option.mem_toList, Option.mem_def] at hx
        exact hc p hop hx
    rw [howner]
    rw [List.countP_map]
    rw [List.countP_congr
      (q := fun r => (fun x => x == a) (Prod.fst r)) (fun x _ => by rfl)]
    rw [List.countP_filter]
    simpa using hrow

/-- Witness for C8: a queue at 150 messages with thresholds 100/500, one
Notification row, and a failing mail transport: the record is persisted
warned, the queue survives, and exactly one attempt is made. -/
theorem warn_scenario_witness :
    (⟨(⟨"q", none, false⟩ : MQueue).name, (⟨"q", none, false⟩ : MQueue).owner,
        true⟩ : MQueue) ∈
      (monitorQueues ⟨100, 500, fun _ => true, fun _ => none, [],
        [("a@x", "q")]⟩ (fun _ => false)
        [⟨"q", none, false⟩] [⟨"q", 150⟩]).store ∧
    (monitorQueues ⟨100, 500, fun _ => true, fun _ => none, [],
        [("a@x", "q")]⟩ (fun _ => false)
        [⟨"q", none, false⟩] [⟨"q", 150⟩]).attempts.countP
      (fun t => t.1 == "a@x" && t.2.1 == (⟨"q", none, false⟩ : MQueue).name) =
      1 :=
  ⟨(warn_scenario ⟨100, 500, fun _ => true, fun _ => none, [], [("a@x", "q")]⟩
      [⟨"q", none, false⟩] [⟨"q", 150⟩] ⟨"q", none, false⟩ ⟨"q", 150⟩ "a@x"
      (by decide) (by decide) rfl rfl (by decide) (by decide) (by decide)
      (by decide) (by decide) (fun p hp => Option.noConfusion hp)
      (fun _ => false)).1,
   (warn_scenario ⟨100, 500, fun _ => true, fun _ => none, [], [("a@x", "q")]⟩
      [⟨"q", none, false⟩] [⟨"q", 150⟩] ⟨"q", none, false⟩ ⟨"q", 150⟩ "a@x"
      (by decide) (by decide) rfl rfl (by decide) (by decide) (by decide)
      (by decide) (by decide) (fun p hp => Option.noConfusion hp)
      (fun _ => false)).2.2.2⟩

/-- Model of Python's `str.lower()` as used by `User.new_user`
(src/pulseguardian/model/user.py line 33). -/
def pyLower (s : String) : String :=
  s.map Char.toLower

/-- Embedding of the `User` ORM record (src/pulseguardian/model/user.py):
username, email and admin flag (the auto-generated integer primary key and
the `queues` relationship are not touched by `new_user` and are omitted). -/
structure User where
  email : String
  username : String
  admin : Bool
deriving DecidableEq

/-- State of the rabbitmq management side touched by `new_user`: the broker
accounts (username, password) and the usernames granted permissions. -/
structure BrokerState where
  users : List (String × String)
  perms : List String
deriving DecidableEq

/-- Embedding of `User.new_user` (src/pulseguardian/model/user.py lines
28-50): lowercase the email, build the `User` record from the lowercased
email, create the rabbitmq user if the management API is present and the
username does not already exist, set its permissions, then add the record
to the session and commit, returning the record.  The database session is
the list of persisted `User` rows; `management_api is None` is modelled by
`broker = none`. -/
def User.new_user (db : List User) (broker : Option BrokerState)
    (email username password : String) (admin : Bool) :
    User × List User × Option BrokerState :=
  let email := pyLower email
  let user : User := ⟨email, username, admin⟩
  let broker :=
    match broker with
    | none => none
    | some b =>
      let b :=
        if b.users.any (fun u => u.1 == username) then b
        else ⟨b.users ++ [(username, password)], b.perms⟩
      some ⟨b.users, b.perms ++ [username]⟩
  (user, db ++ [user], broker)

/-- Claim C9: `User.new_user` persists a `User` record whose email equals
the lowercase form of the input email (normalization happens before the
record is created), and returns that record: the returned record is exactly
the one appended to the persisted rows. -/
theorem new_user_lowercases_email (db : List User) (broker : Option BrokerState)
    (email username password : String) (admin : Bool) :
    (User.new_user db broker email username password admin).1.email =
      pyLower email ∧
    (User.new_user db broker email username password admin).2.1 =
      db ++ [(User.new_user db broker email username password admin).1] :=
  ⟨rfl, rfl⟩

/-- Embedding of the `Queue` ORM record as used by the `delete_queue` view
(src/pulseguardian/web.py): queue name (primary key) and owning PulseUser's
username (absent for unowned queues). -/
structure Queue where
  name : String
  owner : Option String
deriving DecidableEq

/-- Embedding of the logged-in requester (`g.user`) as used by the
`delete_queue` view: a database identity and the admin flag. -/
structure WebUser where
  id : Nat
  admin : Bool
deriving DecidableEq

/-- Embedding of the `delete_queue` view (src/pulseguardian/web.py lines
237-254), for a logged-in requester (`requires_login` has passed).  Look up
the Queue by primary key; if found and the requester is an admin or owns
the queue's owning PulseUser, call the broker delete — a
`PulseManagementException` (modelled by `brokerOk = false`) returns
`ok=False` before the database delete; otherwise delete the row, commit and
return `ok=True`.  All other paths return `ok=False` with the store
untouched.  `pulseOwner` maps a PulseUser username to the id of its owning
user, if any. -/
def delete_queue (store : List Queue) (pulseOwner : String → Option Nat)
    (user : WebUser) (brokerOk : Bool) (queue_name : String) :
    Bool × List Queue :=
  match store.find? (fun q => q.name == queue_name) with
  | some queue =>
    if user.admin || (match queue.owner with
        | some pu => pulseOwner pu == some user.id
        | none => false) then
      if brokerOk then
        (true, store.filter (fun r => !(r.name == queue.name)))
      else (false, store)
    else (false, store)
  | none => (false, store)

/-- Claim C10: if the broker-side delete raises a management exception the
endpoint returns ok=False with the store unchanged; ok=True is returned
only when the broker delete succeeds and the requester is an admin or the
owner of the queue's owning PulseUser, and only then is the record removed;
any change to the store implies ok=True. -/
theorem delete_queue_error_handling (store : List Queue)
    (pulseOwner : String → Option Nat) (user : WebUser) (queue_name : String) :
    (delete_queue store pulseOwner user false queue_name = (false, store)) ∧
    (∀ brokerOk : Bool,
      (delete_queue store pulseOwner user brokerOk queue_name).1 = true →
      brokerOk = true ∧
      ∃ q, store.find? (fun r => r.name == queue_name) = some q ∧
        (user.admin = true ∨
          ∃ pu, q.owner = some pu ∧ pulseOwner pu = some user.id) ∧
        (delete_queue store pulseOwner user brokerOk queue_name).2 =
          store.filter (fun r => !(r.name == q.name))) ∧
    (∀ brokerOk : Bool,
      (delete_queue store pulseOwner user brokerOk queue_name).2 ≠ store →
      (delete_queue store pulseOwner user brokerOk queue_name).1 = true) := by
  have hnone : ∀ (brokerOk : Bool),
      store.find? (fun q => q.name == queue_name) = none →
      delete_queue store pulseOwner user brokerOk queue_name =
        (false, store) := by
    intro brokerOk hfind
    unfold delete_queue
    rw [hfind]
  have hsome : ∀ (brokerOk : Bool) (q : Queue),
      store.find? (fun r => r.name == queue_name) = some q →
      delete_queue store pulseOwner user brokerOk queue_name =
        if user.admin || (match q.owner with
            | some pu => pulseOwner pu == some user.id
            | none => false) then
          if brokerOk then
            (true, store.filter (fun r => !(r.name == q.name)))
          else (false, store)
        else (false, store) := by
    intro brokerOk q hfind
    unfold delete_queue
    rw [hfind]
  refine ⟨?_, ?_, ?_⟩
  · cases hfind : store.find? (fun q => q.name == queue_name) with
    | none => exact hnone false hfind
    | some q =>
      rw [hsome false q hfind]
      split <;> rfl
  · intro brokerOk hok
    cases hfind : store.find? (fun q => q.name == queue_name) with
    | none => rw [hnone brokerOk hfind] at hok; cases hok
    | some q =>
      rw [hsome brokerOk q hfind] at hok ⊢
      split at hok
      next hauth =>
        cases brokerOk with
        | false => cases hok
        | true =>
          refine ⟨rfl, q, rfl, ?_, by simp [hauth]⟩
          rcases Bool.or_eq_true_iff.mp hauth with hadm | hown
          · exact Or.inl hadm
          · cases hqo : q.owner with
            | none => rw [hqo] at hown; cases hown
            | some pu =>
              rw [hqo] at hown
              exact Or.inr ⟨pu, rfl, by simpa using hown⟩
      next => cases hok
  · intro brokerOk hch
    cases hfind : store.find? (fun q => q.name == queue_name) with
    | none => rw [hnone brokerOk hfind] at hch; cases hch rfl
    | some q =>
      rw [hsome brokerOk q hfind] at hch ⊢
      split at hch
      next hauth =>
        cases brokerOk with
        | false => cases hch rfl
        | true => simp [hauth]
      next hauth => cases hch rfl

/-- Witness for C10: a failing broker delete on an owned queue leaves the
store unchanged and returns ok=False. -/
theorem delete_queue_error_handling_witness :
    delete_queue [⟨"q", some "pu"⟩] (fun _ => some 1) ⟨1, false⟩ false "q" =
      (false, [⟨"q", some "pu"⟩]) :=
  (delete_queue_error_handling [⟨"q", some "pu"⟩] (fun _ => some 1)
    ⟨1, false⟩ "q").1

end Pulse
